import Mathlib

/-!
Shallow embedding of `src/main.py` (Streamlit speech-to-text / text-to-speech
app).  The external collaborators (Whisper transcription, gTTS synthesis, the
writability of temporary storage) are modelled as per-upload outcome
parameters; everything else — the batch loop, the transcript ledger, the CSV
serialization, the temporary-directory scope, and the custom text-to-speech
flow — is translated directly from the source.
-/

namespace SpeechApp

/-- An uploaded file as received from `st.file_uploader`: a name and raw bytes. -/
structure UploadedFile where
  name : String
  bytes : List Nat
deriving Repr, DecidableEq

deriving instance DecidableEq for Except

/-- Per-upload outcome of the external world:
* `stageOk` — whether `open(input_filepath, "wb")` / `f.write` (main.py lines 52-53) succeed;
* `transcribe` — the result of `model.transcribe(input_filepath)["text"]` (line 59-61),
  or the exception message on failure;
* `synth` — the result of `gTTS(transcript)` + `tts.save(...)` (lines 74-75),
  or the exception message on failure. -/
structure UploadEnv where
  stageOk : Bool
  transcribe : Except String String
  synth : Except String Unit
deriving Repr, DecidableEq

/-- User-visible effects emitted by the script, in order. -/
inductive Event where
  | info (msg : String)
  | markdown (s : String)
  | subheader (s : String)
  | writeText (s : String)
  | audioPlay (path : String)
  | downloadAudio (label fileName mime : String)
  | downloadCsv (fileName mime : String) (rows : List (List String))
  | errorMsg (msg : String)
  | warning (msg : String)
  | synthCall (text lang : String)
deriving Repr, DecidableEq

/-- Python `os.path.splitext(name)[0]`: everything before the last dot,
except that leading dots never begin an extension. -/
def splitextStem (name : String) : String :=
  let cs := name.toList
  let lead := cs.takeWhile (fun c => c == '.')
  let rest := cs.drop lead.length
  if rest.contains '.' then
    String.mk (lead ++ ((rest.reverse.dropWhile (fun c => c != '.')).tail.reverse))
  else name

/-- `os.path.join(tmpdir, uploaded_file.name)` (main.py line 51). -/
def stagedPath (tmpdir : String) (u : UploadedFile) : String :=
  tmpdir ++ "/" ++ u.name

/-- Boolean list-prefix test, used to model "path lies under a directory". -/
def listLeq : List Char → List Char → Bool
  | [], _ => true
  | _ :: _, [] => false
  | a :: as, b :: bs => a == b && listLeq as bs

/-- `p` is a path inside directory `d`. -/
def underDir (d p : String) : Bool :=
  listLeq (d.toList ++ ['/']) p.toList

/-- Creating/truncating a file: the filesystem is a duplicate-free list of paths. -/
def insertPath (fs : List String) (p : String) : List String :=
  if p ∈ fs then fs else fs ++ [p]

/-- `tempfile.TemporaryDirectory.__exit__`: recursive removal of everything
under the directory, run on every exit path of the `with` block.
Modelled from the documented contract of `tempfile.TemporaryDirectory`
(the call itself is at main.py lines 44 and 128). -/
def cleanup (tmpdir : String) (fs : List String) : List String :=
  fs.filter (fun p => !(underDir tmpdir p))

/-- The error message rendered by the `except` handler (main.py lines 89-94). -/
def whisperErrMsg (name err : String) : String :=
  "An error occurred while transcribing " ++ name ++
  ". This often happens because a dependency (like FFmpeg) is missing or cannot be executed. " ++
  "Ensure 'ffmpeg-python' and 'pydub' are in your requirements.txt." ++
  "Full error: " ++ err

/-- Mutable state of one batch run: the `transcripts` list, the UI events
emitted so far, the files currently existing in `tmpdir`, and every path
ever written during the run. -/
structure BatchState where
  transcripts : List (Nat × String × String)
  events : List Event
  fs : List String
  written : List String
deriving Repr, DecidableEq

/-- One iteration of the `for i, uploaded_file in enumerate(uploaded_files, start=1)`
loop (main.py lines 47-94).  The staging write (lines 51-53) happens *before*
the `try`, so a staging failure raises out of the loop: the returned Bool is
`true` exactly when an uncaught exception escapes.  Inside the `try`, a failure
of transcription or of synthesis is caught by the `except` at line 87. -/
def processUpload (tmpdir : String) (s : BatchState)
    (x : Nat × UploadedFile × UploadEnv) : BatchState × Bool :=
  match x with
  | (i, u, env) =>
    let input := stagedPath tmpdir u
    if env.stageOk then
      let s1 : BatchState :=
        { s with fs := insertPath s.fs input, written := s.written ++ [input] }
      match env.transcribe with
      | .error e =>
          ({ s1 with events := s1.events ++ [Event.errorMsg (whisperErrMsg u.name e)] }, false)
      | .ok t =>
          let s2 : BatchState :=
            { s1 with
              transcripts := s1.transcripts ++ [(i, u.name, t)],
              events := s1.events ++
                [Event.subheader ("File " ++ toString i ++ ": " ++ u.name),
                 Event.writeText t] }
          let ttsName := splitextStem u.name ++ "_tts.mp3"
          let ttsPath := tmpdir ++ "/" ++ ttsName
          match env.synth with
          | .ok _ =>
              ({ s2 with
                 fs := insertPath s2.fs ttsPath,
                 written := s2.written ++ [ttsPath],
                 events := s2.events ++
                   [Event.synthCall t "en", Event.audioPlay ttsPath,
                    Event.downloadAudio ("Download TTS for " ++ u.name) ttsName "audio/mp3"] },
               false)
          | .error e =>
              ({ s2 with events := s2.events ++
                   [Event.synthCall t "en",
                    Event.errorMsg (whisperErrMsg u.name e)] }, false)
    else
      (s, true)

/-- The per-upload loop; stops as soon as an uncaught exception escapes an
iteration (which aborts the body of the `with` block). -/
def runLoop (tmpdir : String) :
    List (Nat × UploadedFile × UploadEnv) → BatchState → BatchState × Bool
  | [], s => (s, false)
  | x :: xs, s =>
    match processUpload tmpdir s x with
    | (s1, true) => (s1, true)
    | (s1, false) => runLoop tmpdir xs s1

/-- `enumerate(uploaded_files, start=i)`. -/
def enumFrom (i : Nat) : List α → List (Nat × α)
  | [] => []
  | a :: as => (i, a) :: enumFrom (i + 1) as

/-- The CSV table written at main.py lines 102-105: the fixed header row
followed by one row per accumulated transcript, in insertion order. -/
def csvTable (ts : List (Nat × String × String)) : List (List String) :=
  ["Number", "Filename", "Transcript"] :: ts.map (fun r => [toString r.1, r.2.1, r.2.2])

/-- Outcome of one whole batch: the final transcripts list, all UI events, the
files visible after the `with tempfile.TemporaryDirectory()` block exits, all
paths written during the run, and whether an exception escaped the loop. -/
structure BatchResult where
  transcripts : List (Nat × String × String)
  events : List Event
  fs : List String
  written : List String
  aborted : Bool
deriving Repr, DecidableEq

/-- The `st.info` banner shown before the loop (main.py line 45). -/
def batchInfo (n : Nat) : Event :=
  Event.info ("Processing " ++ toString n ++ " file(s). This may take a moment.")

/-- The whole `if uploaded_files:` block (main.py lines 40-113): guard on a
non-empty batch, scoped temporary directory, the per-upload loop, then — only
if no exception escaped the loop — CSV serialization and the download button.
The temporary directory is removed on every exit path. -/
def runBatch (tmpdir : String) (us : List (UploadedFile × UploadEnv)) : BatchResult :=
  if us.isEmpty then ⟨[], [], [], [], false⟩
  else
    let s0 : BatchState := ⟨[], [batchInfo us.length], [], []⟩
    match runLoop tmpdir (enumFrom 1 us) s0 with
    | (s, true) => ⟨s.transcripts, s.events, cleanup tmpdir s.fs, s.written, true⟩
    | (s, false) =>
      let csvPath := tmpdir ++ "/" ++ "all_transcripts.csv"
      ⟨s.transcripts,
       s.events ++
         [Event.markdown "---", Event.subheader "Combined Transcripts",
          Event.downloadCsv "all_transcripts.csv" "text/csv" (csvTable s.transcripts)],
       cleanup tmpdir (insertPath s.fs csvPath),
       s.written ++ [csvPath],
       false⟩

/-- Python `str.strip()` whitespace set (the characters `str.split` treats as space). -/
def isPyWs (c : Char) : Bool :=
  c == ' ' || c == '\t' || c == '\n' || c == '\r' || c == '\x0b' || c == '\x0c'

/-- Python `s.strip()`. -/
def pyStrip (s : String) : String :=
  String.mk (((s.toList.dropWhile isPyWs).reverse.dropWhile isPyWs).reverse)

/-- Outcome of one custom text-to-speech submission. -/
structure CustomResult where
  events : List Event
  fs : List String
  written : List String
deriving Repr, DecidableEq

/-- The custom text-to-speech handler (main.py lines 125-146): on a click,
test `custom_text.strip()` for truthiness; if non-empty open a scoped
temporary directory, call `gTTS(custom_text, lang=accent)`, save, play and
offer the download; any synthesis failure is caught and rendered; if the
stripped text is empty, warn and call nothing. -/
def runCustom (tmpdirc text accent : String) (synth : Except String Unit) : CustomResult :=
  if pyStrip text == "" then
    ⟨[Event.warning "Please enter some text first!"], [], []⟩
  else
    match synth with
    | .ok _ =>
      let p := tmpdirc ++ "/" ++ "custom_tts.mp3"
      ⟨[Event.synthCall text accent, Event.audioPlay p,
        Event.downloadAudio "Download Custom TTS" "custom_tts.mp3" "audio/mp3"],
       cleanup tmpdirc [p], [p]⟩
    | .error e =>
      ⟨[Event.synthCall text accent,
        Event.errorMsg ("Error generating custom TTS: " ++ e)],
       cleanup tmpdirc [], []⟩

/-- The closed option set of the accent `st.selectbox` (main.py lines 120-123). -/
def accentOptions : List String := ["en", "en-us", "en-uk", "en-au"]

/-- Whether the transcription call returned without error. -/
def isSuccess : Except String String → Bool
  | .ok _ => true
  | .error _ => false

/-- The ledger row contributed by one enumerated upload, if its transcription
succeeds: sequence number = loop counter, original filename, returned text. -/
def rowOf (x : Nat × UploadedFile × UploadEnv) : Option (Nat × String × String) :=
  match x.2.2.transcribe with
  | .ok t => some (x.1, x.2.1.name, t)
  | .error _ => none

/-- The ledger rows produced by a fully-staged run over enumerated uploads. -/
def successRowsE (xs : List (Nat × UploadedFile × UploadEnv)) : List (Nat × String × String) :=
  xs.filterMap rowOf

/-- The UI events one enumerated upload contributes to a run in which its
staging succeeded (mirrors the `try` body and `except` handler of one loop
iteration). -/
def uploadEvents (tmpdir : String) (x : Nat × UploadedFile × UploadEnv) : List Event :=
  match x with
  | (i, u, env) =>
    match env.transcribe with
    | .error e => [Event.errorMsg (whisperErrMsg u.name e)]
    | .ok t =>
      let ttsName := splitextStem u.name ++ "_tts.mp3"
      [Event.subheader ("File " ++ toString i ++ ": " ++ u.name), Event.writeText t,
       Event.synthCall t "en"] ++
      (match env.synth with
       | .ok _ => [Event.audioPlay (tmpdir ++ "/" ++ ttsName),
                   Event.downloadAudio ("Download TTS for " ++ u.name) ttsName "audio/mp3"]
       | .error e => [Event.errorMsg (whisperErrMsg u.name e)])

/-- All UI events the loop contributes across a fully-staged run. -/
def loopEvents (tmpdir : String) : List (Nat × UploadedFile × UploadEnv) → List Event
  | [] => []
  | x :: xs => uploadEvents tmpdir x ++ loopEvents tmpdir xs

/-- Recognizes the CSV-ledger download event. -/
def isCsvEvent : Event → Bool
  | .downloadCsv _ _ _ => true
  | _ => false

-- sanity checks (concrete evaluation)
example :
    (runBatch "/tmp/t"
      [(⟨"a.wav", [0]⟩, ⟨true, .ok "hello", .ok ()⟩),
       (⟨"b.mp4", [1]⟩, ⟨true, .error "boom", .ok ()⟩),
       (⟨"c.mp3", [2]⟩, ⟨true, .ok "bye", .error "net"⟩)]).transcripts
    = [(1, "a.wav", "hello"), (3, "c.mp3", "bye")] := by rfl

example :
    (runBatch "/tmp/t"
      [(⟨"a.wav", [0]⟩, ⟨true, .ok "hello", .ok ()⟩),
       (⟨"b.mp4", [1]⟩, ⟨false, .ok "x", .ok ()⟩),
       (⟨"c.mp3", [2]⟩, ⟨true, .ok "bye", .ok ()⟩)]).transcripts
    = [(1, "a.wav", "hello")] := by rfl

example : pyStrip "  \t\n " = "" := by rfl
example : splitextStem "a.b.wav" = "a.b" := by rfl
example : splitextStem ".bashrc" = ".bashrc" := by rfl

/-! ### Helper lemmas -/

lemma listLeq_self_append : ∀ (l m : List Char), listLeq l (l ++ m) = true
  | [], _ => rfl
  | a :: as, m => by simp [listLeq, listLeq_self_append as m]

lemma toList_append (s t : String) : (s ++ t).toList = s.toList ++ t.toList :=
  String.data_append s t

lemma underDir_self_append (d x : String) : underDir d (d ++ "/" ++ x) = true := by
  have h : (d ++ "/" ++ x).toList = (d.toList ++ ['/']) ++ x.toList := by
    rw [toList_append, toList_append]
    rfl
  show listLeq (d.toList ++ ['/']) (d ++ "/" ++ x).toList = true
  rw [h]
  exact listLeq_self_append _ _

lemma cleanup_eq_nil (tmpdir : String) (fs : List String)
    (h : ∀ p ∈ fs, underDir tmpdir p = true) : cleanup tmpdir fs = [] := by
  induction fs with
  | nil => rfl
  | cons a as ih =>
    have ha := h a (by simp)
    simp only [cleanup, List.filter_cons, ha]
    exact ih (fun p hp => h p (by simp [hp]))

lemma mem_insertPath {fs : List String} {q p : String} (h : p ∈ insertPath fs q) :
    p ∈ fs ∨ p = q := by
  by_cases hq : q ∈ fs
  · exact Or.inl (by simpa [insertPath, hq] using h)
  · simp only [insertPath, hq, if_false, List.mem_append, List.mem_singleton] at h
    exact h

lemma mem_enumFrom {α : Type} : ∀ {as : List α} {i : Nat} {x : Nat × α},
    x ∈ enumFrom i as → i ≤ x.1 ∧ x.2 ∈ as := by
  intro as
  induction as with
  | nil => intro i x hx; simp [enumFrom] at hx
  | cons a as ih =>
    intro i x hx
    simp only [enumFrom, List.mem_cons] at hx
    rcases hx with rfl | hx
    · exact ⟨le_refl i, by simp⟩
    · have := ih hx
      exact ⟨le_trans (Nat.le_succ i) this.1, by simp [this.2]⟩

lemma enumFrom_append {α : Type} :
    ∀ (as bs : List α) (i : Nat),
      enumFrom i (as ++ bs) = enumFrom i as ++ enumFrom (i + as.length) bs := by
  intro as
  induction as with
  | nil => intro bs i; simp [enumFrom]
  | cons a as ih =>
    intro bs i
    have h1 : enumFrom i ((a :: as) ++ bs) = (i, a) :: enumFrom (i + 1) (as ++ bs) := rfl
    have h2 : enumFrom i (a :: as) = (i, a) :: enumFrom (i + 1) as := rfl
    rw [h1, h2, ih bs (i + 1)]
    have h3 : i + 1 + as.length = i + (a :: as).length := by
      simp only [List.length_cons]
      omega
    rw [h3, List.cons_append]

lemma successRowsE_cons (x : Nat × UploadedFile × UploadEnv)
    (xs : List (Nat × UploadedFile × UploadEnv)) :
    successRowsE (x :: xs) = (rowOf x).toList ++ successRowsE xs := by
  cases h : rowOf x <;> simp [successRowsE, List.filterMap_cons, h]

lemma successRowsE_append (xs ys : List (Nat × UploadedFile × UploadEnv)) :
    successRowsE (xs ++ ys) = successRowsE xs ++ successRowsE ys := by
  simp [successRowsE, List.filterMap_append]

lemma rowOf_fst {x : Nat × UploadedFile × UploadEnv} {r : Nat × String × String}
    (h : rowOf x = some r) : r.1 = x.1 := by
  rcases x with ⟨i, u, env⟩
  cases ht : env.transcribe with
  | error e => simp [rowOf, ht] at h
  | ok t =>
    simp [rowOf, ht] at h
    rw [← h]

lemma successRowsE_fst_sublist :
    ∀ (xs : List (Nat × UploadedFile × UploadEnv)),
      List.Sublist ((successRowsE xs).map (fun r => r.1)) (xs.map (fun x => x.1)) := by
  intro xs
  induction xs with
  | nil => simp [successRowsE]
  | cons x xs ih =>
    rw [successRowsE_cons]
    cases h : rowOf x with
    | none => simpa using List.Sublist.cons x.1 (by simpa using ih)
    | some r =>
      have hr := rowOf_fst h
      simpa [hr] using List.Sublist.cons₂ x.1 (by simpa using ih)

lemma enumFrom_fst_pairwise {α : Type} :
    ∀ (as : List α) (i : Nat), ((enumFrom i as).map (fun x => x.1)).Pairwise (· < ·) := by
  intro as
  induction as with
  | nil => intro i; simp [enumFrom]
  | cons a as ih =>
    intro i
    simp only [enumFrom, List.map_cons, List.pairwise_cons]
    refine ⟨?_, ih (i + 1)⟩
    intro b hb
    simp only [List.mem_map] at hb
    obtain ⟨x, hx, rfl⟩ := hb
    exact lt_of_lt_of_le (Nat.lt_succ_self i) (mem_enumFrom hx).1

lemma processUpload_snd (tmpdir : String) (s : BatchState) (i : Nat)
    (u : UploadedFile) (env : UploadEnv) (hst : env.stageOk = true) :
    (processUpload tmpdir s (i, u, env)).2 = false := by
  cases ht : env.transcribe with
  | error e => simp [processUpload, hst, ht]
  | ok t => cases hs : env.synth <;> simp [processUpload, hst, ht, hs]

lemma processUpload_transcripts (tmpdir : String) (s : BatchState) (i : Nat)
    (u : UploadedFile) (env : UploadEnv) (hst : env.stageOk = true) :
    (processUpload tmpdir s (i, u, env)).1.transcripts
      = s.transcripts ++ (rowOf (i, u, env)).toList := by
  cases ht : env.transcribe with
  | error e => simp [processUpload, hst, ht, rowOf]
  | ok t => cases hs : env.synth <;> simp [processUpload, hst, ht, hs, rowOf]

lemma processUpload_events (tmpdir : String) (s : BatchState) (i : Nat)
    (u : UploadedFile) (env : UploadEnv) (hst : env.stageOk = true) :
    (processUpload tmpdir s (i, u, env)).1.events
      = s.events ++ uploadEvents tmpdir (i, u, env) := by
  cases ht : env.transcribe with
  | error e => simp [processUpload, uploadEvents, hst, ht]
  | ok t => cases hs : env.synth <;> simp [processUpload, uploadEvents, hst, ht, hs]

lemma processUpload_fs (tmpdir : String) (s : BatchState)
    (x : Nat × UploadedFile × UploadEnv)
    (h : ∀ p ∈ s.fs, underDir tmpdir p = true) :
    ∀ p ∈ (processUpload tmpdir s x).1.fs, underDir tmpdir p = true := by
  obtain ⟨i, u, env⟩ := x
  cases hst : env.stageOk with
  | false => simpa [processUpload, hst] using h
  | true =>
    cases ht : env.transcribe with
    | error e =>
      intro p hp
      simp only [processUpload, hst, if_true, ht] at hp
      rcases mem_insertPath hp with h1 | rfl
      · exact h p h1
      · exact underDir_self_append tmpdir u.name
    | ok t =>
      cases hs : env.synth with
      | error e =>
        intro p hp
        simp only [processUpload, hst, if_true, ht, hs] at hp
        rcases mem_insertPath hp with h1 | rfl
        · exact h p h1
        · exact underDir_self_append tmpdir u.name
      | ok _ =>
        intro p hp
        simp only [processUpload, hst, if_true, ht, hs] at hp
        rcases mem_insertPath hp with h1 | rfl
        · rcases mem_insertPath h1 with h2 | rfl
          · exact h p h2
          · exact underDir_self_append tmpdir u.name
        · exact underDir_self_append tmpdir (splitextStem u.name ++ "_tts.mp3")

lemma runLoop_ok (tmpdir : String) :
    ∀ (xs : List (Nat × UploadedFile × UploadEnv)) (s : BatchState),
      (∀ x ∈ xs, x.2.2.stageOk = true) →
      (runLoop tmpdir xs s).2 = false ∧
      (runLoop tmpdir xs s).1.transcripts = s.transcripts ++ successRowsE xs ∧
      (runLoop tmpdir xs s).1.events = s.events ++ loopEvents tmpdir xs := by
  intro xs
  induction xs with
  | nil => intro s h; simp [runLoop, successRowsE, loopEvents]
  | cons x xs ih =>
    intro s h
    obtain ⟨i, u, env⟩ := x
    have hst : env.stageOk = true := h (i, u, env) (by simp)
    have hxs : ∀ y ∈ xs, y.2.2.stageOk = true := fun y hy => h y (by simp [hy])
    rcases hp : processUpload tmpdir s (i, u, env) with ⟨s1, b⟩
    have hb : b = false := by
      have := processUpload_snd tmpdir s i u env hst
      rw [hp] at this; exact this
    subst hb
    have hstep : runLoop tmpdir ((i, u, env) :: xs) s = runLoop tmpdir xs s1 := by
      simp [runLoop, hp]
    have h1 : s1.transcripts = s.transcripts ++ (rowOf (i, u, env)).toList := by
      have := processUpload_transcripts tmpdir s i u env hst
      rw [hp] at this; exact this
    have h2 : s1.events = s.events ++ uploadEvents tmpdir (i, u, env) := by
      have := processUpload_events tmpdir s i u env hst
      rw [hp] at this; exact this
    obtain ⟨ih1, ih2, ih3⟩ := ih s1 hxs
    refine ⟨by rw [hstep]; exact ih1, ?_, ?_⟩
    · rw [hstep, ih2, h1, successRowsE_cons, List.append_assoc]
    · rw [hstep, ih3, h2, List.append_assoc]
      rfl

lemma runLoop_fs (tmpdir : String) :
    ∀ (xs : List (Nat × UploadedFile × UploadEnv)) (s : BatchState),
      (∀ p ∈ s.fs, underDir tmpdir p = true) →
      ∀ p ∈ (runLoop tmpdir xs s).1.fs, underDir tmpdir p = true := by
  intro xs
  induction xs with
  | nil => intro s h; simpa [runLoop] using h
  | cons x xs ih =>
    intro s h
    rcases hp : processUpload tmpdir s x with ⟨s1, b⟩
    have hs1 : ∀ p ∈ s1.fs, underDir tmpdir p = true := by
      have := processUpload_fs tmpdir s x h
      rw [hp] at this; exact this
    cases b with
    | true => simpa [runLoop, hp] using hs1
    | false =>
      have hstep : runLoop tmpdir (x :: xs) s = runLoop tmpdir xs s1 := by
        simp [runLoop, hp]
      rw [hstep]
      exact ih s1 hs1

lemma runLoop_abort (tmpdir : String) (x : Nat × UploadedFile × UploadEnv)
    (hx : x.2.2.stageOk = false) :
    ∀ (pre post : List (Nat × UploadedFile × UploadEnv)) (s : BatchState),
      (∀ y ∈ pre, y.2.2.stageOk = true) →
      runLoop tmpdir (pre ++ x :: post) s = ((runLoop tmpdir pre s).1, true) := by
  intro pre
  induction pre with
  | nil =>
    intro post s _
    obtain ⟨i, u, env⟩ := x
    have hx2 : env.stageOk = false := hx
    have hpu : processUpload tmpdir s (i, u, env) = (s, true) := by
      simp [processUpload, hx2]
    simp [runLoop, hpu]
  | cons y pre ih =>
    intro post s h
    have hy : y.2.2.stageOk = true := h y (by simp)
    rcases hp : processUpload tmpdir s y with ⟨s1, b⟩
    have hb : b = false := by
      obtain ⟨i, u, env⟩ := y
      have := processUpload_snd tmpdir s i u env hy
      rw [hp] at this; exact this
    subst hb
    have e1 : runLoop tmpdir ((y :: pre) ++ x :: post) s
        = runLoop tmpdir (pre ++ x :: post) s1 := by
      simp [runLoop, hp]
    have e2 : runLoop tmpdir (y :: pre) s = runLoop tmpdir pre s1 := by
      simp [runLoop, hp]
    rw [e1, e2, ih post s1 (fun z hz => h z (by simp [hz]))]

lemma uploadEvents_noCsv (tmpdir : String) (x : Nat × UploadedFile × UploadEnv) :
    ∀ ev ∈ uploadEvents tmpdir x, isCsvEvent ev = false := by
  obtain ⟨i, u, env⟩ := x
  cases ht : env.transcribe with
  | error e =>
    intro ev hev
    simp [uploadEvents, ht] at hev
    subst hev; rfl
  | ok t =>
    cases hs : env.synth with
    | ok _ =>
      intro ev hev
      simp [uploadEvents, ht, hs] at hev
      rcases hev with rfl | rfl | rfl | rfl | rfl <;> rfl
    | error e =>
      intro ev hev
      simp [uploadEvents, ht, hs] at hev
      rcases hev with rfl | rfl | rfl | rfl <;> rfl

lemma loopEvents_noCsv (tmpdir : String) :
    ∀ (xs : List (Nat × UploadedFile × UploadEnv)),
      ∀ ev ∈ loopEvents tmpdir xs, isCsvEvent ev = false := by
  intro xs
  induction xs with
  | nil => intro ev hev; simp [loopEvents] at hev
  | cons x xs ih =>
    intro ev hev
    rcases List.mem_append.mp hev with h1 | h2
    · exact uploadEvents_noCsv tmpdir x ev h1
    · exact ih ev h2

lemma loopEvents_append (tmpdir : String) :
    ∀ (xs ys : List (Nat × UploadedFile × UploadEnv)),
      loopEvents tmpdir (xs ++ ys) = loopEvents tmpdir xs ++ loopEvents tmpdir ys := by
  intro xs
  induction xs with
  | nil => intro ys; simp [loopEvents]
  | cons x xs ih => intro ys; simp [loopEvents, ih, List.append_assoc]

lemma successRowsE_enum_length :
    ∀ (us : List (UploadedFile × UploadEnv)) (i : Nat),
      (successRowsE (enumFrom i us)).length
        = (us.filter (fun x => isSuccess x.2.transcribe)).length := by
  intro us
  induction us with
  | nil => intro i; simp [successRowsE, enumFrom]
  | cons u us ih =>
    intro i
    have he : enumFrom i (u :: us) = (i, u) :: enumFrom (i + 1) us := rfl
    rw [he, successRowsE_cons]
    cases hu : u.2.transcribe with
    | ok t => simp [rowOf, hu, List.filter_cons, isSuccess, ih (i + 1)]
    | error e => simp [rowOf, hu, List.filter_cons, isSuccess, ih (i + 1)]

lemma isEmpty_false_of_ne {α : Type} {l : List α} (h : l ≠ []) : l.isEmpty = false := by
  cases l with
  | nil => exact absurd rfl h
  | cons a as => rfl

lemma runBatch_ok (tmpdir : String) (us : List (UploadedFile × UploadEnv))
    (hne : us ≠ []) (hstage : ∀ x ∈ us, x.2.stageOk = true) :
    (runBatch tmpdir us).aborted = false ∧
    (runBatch tmpdir us).transcripts = successRowsE (enumFrom 1 us) ∧
    (runBatch tmpdir us).events
      = (batchInfo us.length :: loopEvents tmpdir (enumFrom 1 us))
        ++ [Event.markdown "---", Event.subheader "Combined Transcripts",
            Event.downloadCsv "all_transcripts.csv" "text/csv"
              (csvTable (successRowsE (enumFrom 1 us)))] := by
  have hE := isEmpty_false_of_ne hne
  have henv : ∀ x ∈ enumFrom 1 us, x.2.2.stageOk = true := by
    intro x hx
    exact hstage x.2 (mem_enumFrom hx).2
  rcases hr : runLoop tmpdir (enumFrom 1 us) ⟨[], [batchInfo us.length], [], []⟩ with ⟨s, b⟩
  obtain ⟨hb, htr, hev⟩ := runLoop_ok tmpdir (enumFrom 1 us) ⟨[], [batchInfo us.length], [], []⟩ henv
  rw [hr] at hb htr hev
  have hb2 : b = false := hb
  subst hb2
  have htr2 : s.transcripts = successRowsE (enumFrom 1 us) := by simpa using htr
  have hev2 : s.events = batchInfo us.length :: loopEvents tmpdir (enumFrom 1 us) := by
    simpa using hev
  refine ⟨?_, ?_, ?_⟩
  · simp [runBatch, hE, hr]
  · simp [runBatch, hE, hr, htr2]
  · simp [runBatch, hE, hr, htr2, hev2]

lemma runBatch_fs (tmpdir : String) (us : List (UploadedFile × UploadEnv)) :
    (runBatch tmpdir us).fs = [] := by
  by_cases hne : us = []
  · subst hne; rfl
  · have hE := isEmpty_false_of_ne hne
    rcases hr : runLoop tmpdir (enumFrom 1 us) ⟨[], [batchInfo us.length], [], []⟩ with ⟨s, b⟩
    have h0 : ∀ p ∈ ([] : List String), underDir tmpdir p = true := by
      intro p hp; cases hp
    have hfs : ∀ p ∈ s.fs, underDir tmpdir p = true := by
      have := runLoop_fs tmpdir (enumFrom 1 us) ⟨[], [batchInfo us.length], [], []⟩ h0
      rw [hr] at this
      exact this
    cases b with
    | true =>
      simp only [runBatch, hE, hr]
      exact cleanup_eq_nil tmpdir s.fs hfs
    | false =>
      simp only [runBatch, hE, hr]
      apply cleanup_eq_nil
      intro p hp
      rcases mem_insertPath hp with h1 | rfl
      · exact hfs p h1
      · exact underDir_self_append tmpdir "all_transcripts.csv"

lemma runBatch_abort_eq (tmpdir : String) (pre post : List (UploadedFile × UploadEnv))
    (u : UploadedFile) (e : UploadEnv)
    (hpre : ∀ y ∈ pre, y.2.stageOk = true) (he : e.stageOk = false) :
    (runBatch tmpdir (pre ++ (u, e) :: post)).aborted = true ∧
    (runBatch tmpdir (pre ++ (u, e) :: post)).transcripts = successRowsE (enumFrom 1 pre) ∧
    (runBatch tmpdir (pre ++ (u, e) :: post)).events
      = batchInfo (pre ++ (u, e) :: post).length :: loopEvents tmpdir (enumFrom 1 pre) := by
  have hne : pre ++ (u, e) :: post ≠ [] := by simp
  have hE := isEmpty_false_of_ne hne
  have henum : enumFrom 1 (pre ++ (u, e) :: post)
      = enumFrom 1 pre ++ (1 + pre.length, u, e) :: enumFrom (1 + pre.length + 1) post := by
    rw [enumFrom_append]
    rfl
  have henvpre : ∀ y ∈ enumFrom 1 pre, y.2.2.stageOk = true := by
    intro y hy
    exact hpre y.2 (mem_enumFrom hy).2
  rcases hr : runLoop tmpdir (enumFrom 1 pre)
      ⟨[], [batchInfo (pre ++ (u, e) :: post).length], [], []⟩ with ⟨s, b⟩
  have hfull : runLoop tmpdir (enumFrom 1 (pre ++ (u, e) :: post))
      ⟨[], [batchInfo (pre ++ (u, e) :: post).length], [], []⟩ = (s, true) := by
    rw [henum, runLoop_abort tmpdir (1 + pre.length, u, e) he _ _ _ henvpre, hr]
  obtain ⟨hb, htr, hev⟩ := runLoop_ok tmpdir (enumFrom 1 pre)
      ⟨[], [batchInfo (pre ++ (u, e) :: post).length], [], []⟩ henvpre
  rw [hr] at htr hev
  have htr2 : s.transcripts = successRowsE (enumFrom 1 pre) := by simpa using htr
  have hev2 : s.events
      = batchInfo (pre ++ (u, e) :: post).length :: loopEvents tmpdir (enumFrom 1 pre) := by
    simpa using hev
  simp only [List.length_append, List.length_cons] at hfull
  refine ⟨?_, ?_, ?_⟩
  · simp [runBatch, hE, hfull]
  · simp [runBatch, hE, hfull, htr2]
  · simp [runBatch, hE, hfull, hev2]

/-! ### Claims -/

/-- C1: for every non-empty upload batch whose uploads all stage successfully,
the number of rows in the transcripts ledger equals the number of uploads
whose transcription call succeeded; moreover, around any chosen upload the
ledger decomposes into the rows of the earlier uploads, that upload's own (at
most one) row, and the rows of the later uploads — the two surrounding parts
do not depend on the chosen upload's transcription outcome, so a transcription
failure for one upload never removes or prevents rows for other uploads. -/
theorem C1_ledger_row_count (tmpdir : String) (us : List (UploadedFile × UploadEnv))
    (hne : us ≠ []) (hstage : ∀ x ∈ us, x.2.stageOk = true) :
    (runBatch tmpdir us).transcripts.length
      = (us.filter (fun x => isSuccess x.2.transcribe)).length ∧
    ∀ pre u e post, us = pre ++ (u, e) :: post →
      (runBatch tmpdir us).transcripts
        = successRowsE (enumFrom 1 pre) ++ (rowOf (1 + pre.length, u, e)).toList
          ++ successRowsE (enumFrom (1 + pre.length + 1) post) := by
  obtain ⟨-, htr, -⟩ := runBatch_ok tmpdir us hne hstage
  constructor
  · rw [htr]
    exact successRowsE_enum_length us 1
  · intro pre u e post hus
    subst hus
    rw [htr, enumFrom_append]
    have he : enumFrom (1 + pre.length) ((u, e) :: post)
        = (1 + pre.length, u, e) :: enumFrom (1 + pre.length + 1) post := rfl
    rw [he, successRowsE_append, successRowsE_cons, List.append_assoc]

/-- Witness for C1 at a concrete batch: one success and one failure. -/
theorem C1_ledger_row_count_witness :
    (runBatch "/t" [(⟨"a.wav", [0]⟩, ⟨true, Except.ok "A", Except.ok ()⟩),
                    (⟨"b.mp4", [1]⟩, ⟨true, Except.error "boom", Except.ok ()⟩)]).transcripts.length
      = (([(⟨"a.wav", [0]⟩, ⟨true, Except.ok "A", Except.ok ()⟩),
           (⟨"b.mp4", [1]⟩, ⟨true, Except.error "boom", Except.ok ()⟩)] :
              List (UploadedFile × UploadEnv)).filter
            (fun x => isSuccess x.2.transcribe)).length :=
  (C1_ledger_row_count "/t" _ (by decide) (by decide)).1

/-- C2: for every fully-staged batch, the ledger equals the upload-order
enumeration (counter starting at 1, incremented for every upload, failed or
not) restricted to the uploads whose transcription succeeded, each record
carrying its upload's 1-based position among all uploads; consequently the
sequence numbers in the ledger are strictly increasing. -/
theorem C2_sequence_numbers (tmpdir : String) (us : List (UploadedFile × UploadEnv))
    (hne : us ≠ []) (hstage : ∀ x ∈ us, x.2.stageOk = true) :
    (runBatch tmpdir us).transcripts
      = (enumFrom 1 us).filterMap
          (fun x => match x.2.2.transcribe with
            | .ok t => some (x.1, x.2.1.name, t)
            | .error _ => none) ∧
    ((runBatch tmpdir us).transcripts.map (fun r => r.1)).Pairwise (· < ·) := by
  obtain ⟨-, htr, -⟩ := runBatch_ok tmpdir us hne hstage
  constructor
  · rw [htr]
    rfl
  · rw [htr]
    exact (enumFrom_fst_pairwise us 1).sublist (successRowsE_fst_sublist _)

/-- Witness for C2 at a concrete batch: sequence numbers 1 and 3 (upload 2 failed). -/
theorem C2_sequence_numbers_witness :
    ((runBatch "/t" [(⟨"a.wav", [0]⟩, ⟨true, Except.ok "A", Except.ok ()⟩),
                     (⟨"b.mp4", [1]⟩, ⟨true, Except.error "boom", Except.ok ()⟩),
                     (⟨"c.mp3", [2]⟩, ⟨true, Except.ok "C", Except.ok ()⟩)]).transcripts.map
        (fun r => r.1)).Pairwise (· < ·) :=
  (C2_sequence_numbers "/t" _ (by decide) (by decide)).2

/-- C3 counterexample: the claim says a staging failure aborts that file only,
with the rest of the batch still processed and the ledger still serialized.
In the code the staging write (main.py lines 51-53) sits before the `try`, so
the exception escapes the loop: with upload 2's staging failing, upload 3
(whose transcription would succeed with text "C") gets no row, and no CSV
download event is ever emitted. -/
theorem C3_counterexample :
    (runBatch "/t" [(⟨"a.wav", [0]⟩, ⟨true, Except.ok "A", Except.ok ()⟩),
                    (⟨"b.wav", [1]⟩, ⟨false, Except.ok "B", Except.ok ()⟩),
                    (⟨"c.wav", [2]⟩, ⟨true, Except.ok "C", Except.ok ()⟩)]).aborted = true ∧
    (runBatch "/t" [(⟨"a.wav", [0]⟩, ⟨true, Except.ok "A", Except.ok ()⟩),
                    (⟨"b.wav", [1]⟩, ⟨false, Except.ok "B", Except.ok ()⟩),
                    (⟨"c.wav", [2]⟩, ⟨true, Except.ok "C", Except.ok ()⟩)]).transcripts
      = [(1, "a.wav", "A")] ∧
    ((runBatch "/t" [(⟨"a.wav", [0]⟩, ⟨true, Except.ok "A", Except.ok ()⟩),
                     (⟨"b.wav", [1]⟩, ⟨false, Except.ok "B", Except.ok ()⟩),
                     (⟨"c.wav", [2]⟩, ⟨true, Except.ok "C", Except.ok ()⟩)]).events.all
        (fun ev => !(isCsvEvent ev))) = true :=
  ⟨rfl, rfl, rfl⟩

/-- C3 (amended): if staging an upload fails, the whole batch is aborted — the
rows of the earlier uploads remain in the in-memory ledger, the failing upload
and all later uploads contribute nothing, the ledger is never serialized (no
CSV download event), and the temporary directory is still cleaned up. -/
theorem C3_staging_aborts_batch (tmpdir : String)
    (pre post : List (UploadedFile × UploadEnv)) (u : UploadedFile) (e : UploadEnv)
    (hpre : ∀ y ∈ pre, y.2.stageOk = true) (he : e.stageOk = false) :
    (runBatch tmpdir (pre ++ (u, e) :: post)).aborted = true ∧
    (runBatch tmpdir (pre ++ (u, e) :: post)).transcripts = successRowsE (enumFrom 1 pre) ∧
    (∀ ev ∈ (runBatch tmpdir (pre ++ (u, e) :: post)).events, isCsvEvent ev = false) ∧
    (runBatch tmpdir (pre ++ (u, e) :: post)).fs = [] := by
  obtain ⟨h1, h2, h3⟩ := runBatch_abort_eq tmpdir pre post u e hpre he
  refine ⟨h1, h2, ?_, runBatch_fs tmpdir _⟩
  intro ev hev
  rw [h3] at hev
  rcases List.mem_cons.mp hev with rfl | h4
  · rfl
  · exact loopEvents_noCsv tmpdir _ ev h4

/-- Witness for the amended C3 at a concrete batch. -/
theorem C3_staging_aborts_batch_witness :
    (runBatch "/t" ([(⟨"a.wav", [0]⟩, ⟨true, Except.ok "A", Except.ok ()⟩)] ++
        (⟨"b.wav", [1]⟩, ⟨false, Except.ok "B", Except.ok ()⟩) ::
        [(⟨"c.wav", [2]⟩, ⟨true, Except.ok "C", Except.ok ()⟩)])).aborted = true :=
  (C3_staging_aborts_batch "/t" _ _ _ _ (by decide) rfl).1

/-- C4 counterexample: the staged path is derived only from the temporary
directory and the upload's original filename, so two distinct uploads sharing
a filename (different bytes) are written to the same path — the second
overwrites the first, refuting per-upload path uniqueness. -/
theorem C4_counterexample :
    stagedPath "/tmp/t" ⟨"a.wav", [0]⟩ = stagedPath "/tmp/t" ⟨"a.wav", [1]⟩ ∧
    (⟨"a.wav", [0]⟩ : UploadedFile) ≠ ⟨"a.wav", [1]⟩ :=
  ⟨rfl, by decide⟩

/-- C4 (amended): staged file paths are unique per upload within a batch
provided the uploads' filenames are pairwise distinct; uploads sharing a
filename map to the same staged path. -/
theorem C4_staged_paths_unique (tmpdir : String) (us : List UploadedFile)
    (hnd : (us.map UploadedFile.name).Nodup) :
    (us.map (stagedPath tmpdir)).Nodup := by
  have hmap : us.map (stagedPath tmpdir)
      = (us.map UploadedFile.name).map (fun n => tmpdir ++ "/" ++ n) := by
    rw [List.map_map]
    rfl
  rw [hmap]
  apply hnd.map
  intro a b hab
  have h1 : (tmpdir ++ "/" ++ a).data = (tmpdir ++ "/" ++ b).data :=
    congrArg String.data hab
  simp only [String.data_append, List.append_assoc] at h1
  exact String.ext (List.append_cancel_left (List.append_cancel_left h1))

/-- Witness for the amended C4 at a concrete batch with distinct filenames. -/
theorem C4_staged_paths_unique_witness :
    (([⟨"a.wav", [0]⟩, ⟨"b.mp3", [1]⟩] : List UploadedFile).map (stagedPath "/t")).Nodup :=
  C4_staged_paths_unique "/t" _ (by decide)

/-- C5: if an upload's transcription succeeds with text `t` but its synthesis
call fails, the record already appended for it stays in the ledger, the error
is surfaced for that file, the loop is not aborted, and the ledger still
carries every success of the whole batch (later uploads included). -/
theorem C5_synth_failure_record_stands (tmpdir : String)
    (pre post : List (UploadedFile × UploadEnv)) (u : UploadedFile) (e : UploadEnv)
    (t msg : String)
    (hstage : ∀ x ∈ pre ++ (u, e) :: post, x.2.stageOk = true)
    (htr : e.transcribe = .ok t) (hsy : e.synth = .error msg) :
    (1 + pre.length, u.name, t) ∈ (runBatch tmpdir (pre ++ (u, e) :: post)).transcripts ∧
    Event.errorMsg (whisperErrMsg u.name msg) ∈ (runBatch tmpdir (pre ++ (u, e) :: post)).events ∧
    (runBatch tmpdir (pre ++ (u, e) :: post)).aborted = false ∧
    (runBatch tmpdir (pre ++ (u, e) :: post)).transcripts
      = successRowsE (enumFrom 1 (pre ++ (u, e) :: post)) := by
  have hne : pre ++ (u, e) :: post ≠ [] := by simp
  obtain ⟨hab, htrs, hev⟩ := runBatch_ok tmpdir _ hne hstage
  have henum : enumFrom 1 (pre ++ (u, e) :: post)
      = enumFrom 1 pre ++ (1 + pre.length, u, e) :: enumFrom (1 + pre.length + 1) post := by
    rw [enumFrom_append]
    rfl
  have hrow : rowOf (1 + pre.length, u, e) = some (1 + pre.length, u.name, t) := by
    simp [rowOf, htr]
  refine ⟨?_, ?_, hab, htrs⟩
  · rw [htrs, henum, successRowsE_append, successRowsE_cons, hrow]
    simp
  · have hmem : Event.errorMsg (whisperErrMsg u.name msg)
        ∈ uploadEvents tmpdir (1 + pre.length, u, e) := by
      simp [uploadEvents, htr, hsy]
    rw [hev, henum, loopEvents_append]
    simp [loopEvents, hmem]

/-- Witness for C5 at a concrete batch: upload 2 transcribes "B" but its
synthesis fails; its row (2, "b.mp3", "B") is in the ledger. -/
theorem C5_synth_failure_record_stands_witness :
    (2, "b.mp3", "B") ∈ (runBatch "/t"
        ([(⟨"a.wav", [0]⟩, ⟨true, Except.ok "A", Except.ok ()⟩)] ++
         (⟨"b.mp3", [1]⟩, ⟨true, Except.ok "B", Except.error "net"⟩) ::
         [(⟨"c.mp4", [2]⟩, ⟨true, Except.ok "C", Except.ok ()⟩)])).transcripts :=
  (C5_synth_failure_record_stands "/t" _ _ _ _ "B" "net" (by decide) rfl rfl).1

/-- C6: on a custom-text submission, if the text strips to empty only a
user-visible warning is produced (the synthesis service is not invoked, since
the event list is exactly the warning); if the text strips non-empty, no
warning is produced and synthesis is attempted with that text. -/
theorem C6_empty_text_warning (tmpdirc text accent : String) (synth : Except String Unit) :
    (pyStrip text = "" →
      (runCustom tmpdirc text accent synth).events
        = [Event.warning "Please enter some text first!"]) ∧
    (pyStrip text ≠ "" →
      Event.synthCall text accent ∈ (runCustom tmpdirc text accent synth).events ∧
      ∀ m, Event.warning m ∉ (runCustom tmpdirc text accent synth).events) := by
  constructor
  · intro h
    have hb : (pyStrip text == "") = true := by simp [h]
    simp [runCustom, hb]
  · intro h
    have hb : (pyStrip text == "") = false := by simp [h]
    cases synth with
    | ok v =>
      refine ⟨by simp [runCustom, hb], ?_⟩
      intro m
      simp [runCustom, hb]
    | error e =>
      refine ⟨by simp [runCustom, hb], ?_⟩
      intro m
      simp [runCustom, hb]

/-- Witness for C6: whitespace-only text warns without a synthesis call;
non-empty text reaches the synthesis call. -/
theorem C6_empty_text_warning_witness :
    (runCustom "/t" "  \t " "en" (Except.ok ())).events
      = [Event.warning "Please enter some text first!"] ∧
    Event.synthCall "hi" "en" ∈ (runCustom "/t" "hi" "en" (Except.ok ())).events :=
  ⟨(C6_empty_text_warning "/t" "  \t " "en" (Except.ok ())).1 rfl,
   ((C6_empty_text_warning "/t" "hi" "en" (Except.ok ())).2 (by decide)).1⟩

/-- C7: for every non-empty, fully-staged batch, the event stream ends with a
single CSV download — filename `all_transcripts.csv`, MIME `text/csv`, content
exactly the header row `Number`, `Filename`, `Transcript` followed by one row
per ledger record in insertion order — and no CSV download occurs anywhere
earlier (in particular never during the per-upload loop). -/
theorem C7_csv_serialization (tmpdir : String) (us : List (UploadedFile × UploadEnv))
    (hne : us ≠ []) (hstage : ∀ x ∈ us, x.2.stageOk = true) :
    ∃ pre,
      (runBatch tmpdir us).events
        = pre ++ [Event.downloadCsv "all_transcripts.csv" "text/csv"
            (["Number", "Filename", "Transcript"]
              :: (runBatch tmpdir us).transcripts.map (fun r => [toString r.1, r.2.1, r.2.2]))] ∧
      ∀ ev ∈ pre, isCsvEvent ev = false := by
  obtain ⟨-, htrs, hev⟩ := runBatch_ok tmpdir us hne hstage
  refine ⟨(batchInfo us.length :: loopEvents tmpdir (enumFrom 1 us))
      ++ [Event.markdown "---", Event.subheader "Combined Transcripts"], ?_, ?_⟩
  · rw [hev, htrs]
    simp [csvTable]
  · intro ev hev2
    simp only [List.cons_append, List.mem_cons, List.mem_append] at hev2
    rcases hev2 with rfl | (h1 | (rfl | (rfl | h2)))
    · rfl
    · exact loopEvents_noCsv tmpdir _ ev h1
    · rfl
    · rfl
    · cases h2

/-- Witness for C7 at a concrete one-upload batch. -/
theorem C7_csv_serialization_witness :
    ∃ pre,
      (runBatch "/t" [(⟨"a.wav", [0]⟩, ⟨true, Except.ok "A", Except.ok ()⟩)]).events
        = pre ++ [Event.downloadCsv "all_transcripts.csv" "text/csv"
            (["Number", "Filename", "Transcript"]
              :: (runBatch "/t" [(⟨"a.wav", [0]⟩, ⟨true, Except.ok "A", Except.ok ()⟩)]).transcripts.map
                  (fun r => [toString r.1, r.2.1, r.2.2]))] ∧
      ∀ ev ∈ pre, isCsvEvent ev = false :=
  C7_csv_serialization "/t" _ (by decide) (by decide)

/-- C8: the batch scope and the custom-synthesis scope remove every file
written inside their temporary directory on every exit path (success, per-file
errors, or an exception escaping the loop — the result is universally
quantified over all per-upload outcomes), so no staged, synthesized or CSV
path survives into a later batch. -/
theorem C8_temp_cleanup :
    (∀ (tmpdir : String) (us : List (UploadedFile × UploadEnv)),
      (runBatch tmpdir us).fs = []) ∧
    (∀ (tmpdirc text accent : String) (synth : Except String Unit),
      (runCustom tmpdirc text accent synth).fs = []) := by
  constructor
  · exact runBatch_fs
  · intro tmpdirc text accent synth
    by_cases h : (pyStrip text == "") = true
    · simp [runCustom, h]
    · have hb : (pyStrip text == "") = false := by
        cases hx : (pyStrip text == "") with
        | true => exact absurd hx h
        | false => rfl
      cases synth with
      | ok v =>
        simp only [runCustom, hb, Bool.false_eq_true, if_false]
        apply cleanup_eq_nil
        intro p hp
        rcases List.mem_singleton.mp hp with rfl
        exact underDir_self_append tmpdirc "custom_tts.mp3"
      | error e =>
        simp only [runCustom, hb, Bool.false_eq_true, if_false]
        rfl

/-- C9: a custom-text submission with non-empty stripped text and an accent
from the selector's closed set invokes synthesis with exactly that accent as
the language tag, then exposes inline playback and a download named
`custom_tts.mp3` with MIME type `audio/mp3`. -/
theorem C9_custom_accent (tmpdirc text accent : String)
    (_hacc : accent ∈ accentOptions) (hne : pyStrip text ≠ "") :
    (runCustom tmpdirc text accent (Except.ok ())).events
      = [Event.synthCall text accent,
         Event.audioPlay (tmpdirc ++ "/" ++ "custom_tts.mp3"),
         Event.downloadAudio "Download Custom TTS" "custom_tts.mp3" "audio/mp3"] := by
  have hb : (pyStrip text == "") = false := by simp [hne]
  simp [runCustom, hb]

/-- Witness for C9: "Hello world" with accent "en-uk". -/
theorem C9_custom_accent_witness :
    (runCustom "/t" "Hello world" "en-uk" (Except.ok ())).events
      = [Event.synthCall "Hello world" "en-uk",
         Event.audioPlay ("/t" ++ "/" ++ "custom_tts.mp3"),
         Event.downloadAudio "Download Custom TTS" "custom_tts.mp3" "audio/mp3"] :=
  C9_custom_accent "/t" "Hello world" "en-uk" (by decide) (by decide)

/-- C10: for a non-empty, fully-staged batch in which every transcription
fails, the ledger is empty and the CSV download is still offered, containing
exactly the header row and zero data rows. -/
theorem C10_all_fail_header_only (tmpdir : String) (us : List (UploadedFile × UploadEnv))
    (hne : us ≠ []) (hstage : ∀ x ∈ us, x.2.stageOk = true)
    (hfail : ∀ x ∈ us, isSuccess x.2.transcribe = false) :
    (runBatch tmpdir us).transcripts = [] ∧
    Event.downloadCsv "all_transcripts.csv" "text/csv" [["Number", "Filename", "Transcript"]]
      ∈ (runBatch tmpdir us).events := by
  obtain ⟨-, htrs, hev⟩ := runBatch_ok tmpdir us hne hstage
  have hnil : successRowsE (enumFrom 1 us) = [] := by
    apply List.filterMap_eq_nil_iff.mpr
    intro x hx
    have hfx := hfail x.2 (mem_enumFrom hx).2
    rcases x with ⟨i, u, env⟩
    cases ht : env.transcribe with
    | ok t =>
      rw [ht] at hfx
      exact absurd hfx (by simp [isSuccess])
    | error e => simp [rowOf, ht]
  constructor
  · rw [htrs, hnil]
  · rw [hev, hnil]
    simp [csvTable]

/-- Witness for C10: a one-upload batch whose transcription fails still yields
the header-only CSV download. -/
theorem C10_all_fail_header_only_witness :
    Event.downloadCsv "all_transcripts.csv" "text/csv" [["Number", "Filename", "Transcript"]]
      ∈ (runBatch "/t" [(⟨"a.wav", [0]⟩, ⟨true, Except.error "bad", Except.ok ()⟩)]).events :=
  (C10_all_fail_header_only "/t" _ (by decide) (by decide) (by decide)).2

end SpeechApp
